import Mathlib

/-!
Verification of the newsroom photo-stylizer composition core

Shallow embedding of the layered-image composition algorithm of
`src/App.js` (the `draw` routine, the `onFile` image-loading handler and
the redraw effect), together with proofs of the specification's claims.

Numbers are modelled as rationals (`ℚ`): every operation the core
performs on them (division by 100, multiplication, `Math.pow` with a
natural exponent, `min`/`max`, subtraction, halving) is exact on `ℚ`.
The raster surface is modelled in logical coordinates as a total map
from points to colors; `ctx.setTransform(dpiScale, 0, 0, dpiScale, 0, 0)`
makes the code draw in logical coordinates, so the physical
(density-scaled) buffer is a pure rescaling of this map and carries no
extra information for the geometric claims below.
-/

/-- An RGB color value, abstractly encoded as a natural number
(`ctx.fillStyle` strings map injectively into this). -/
abbrev Color := ℕ

/-- A decoded source image: natural dimensions plus its pixel content,
modelled as a map from source-space sample coordinates to colors
(`imgObj.width`, `imgObj.height`, and the pixel data that
`ctx.drawImage` resamples). -/
structure Image where
  width : ℚ
  height : ℚ
  pixel : ℚ × ℚ → Color

/-- The `direction` state: `"left" | "right"`. -/
inductive Direction
  | left
  | right
deriving DecidableEq, Repr

/-- The `anchor` state: the keys `"tl" | "tr" | "bl" | "br" | "c"` of the
`ANCHORS` list. -/
inductive Anchor
  | tl
  | tr
  | bl
  | br
  | c
deriving DecidableEq, Repr

/-- One render configuration: the React state values that `draw` reads
(`bg`, `size`, `direction`, `repeats`, `gapPct`, `stepScale`,
`yOffsetPct`, `anchor`, `padding`, `baseScalePct`).  The pixel-density
factor only rescales the backing store and is omitted from the logical
model. -/
structure Config where
  bg : Color
  w : ℚ
  h : ℚ
  direction : Direction
  repeats : ℤ
  gapPct : ℚ
  stepScale : ℚ
  yOffsetPct : ℚ
  anchor : Anchor
  padding : ℚ
  baseScalePct : ℚ
deriving DecidableEq

/-- One derived layer: `{index, scale, x, y, width, height}`. -/
structure Layer where
  index : ℕ
  scale : ℚ
  x : ℚ
  y : ℚ
  w : ℚ
  h : ℚ
deriving DecidableEq, Repr

/-- Embeds `const shortest = Math.min(w, h)` (App.js line 104). -/
def shortest (cfg : Config) : ℚ :=
  min cfg.w cfg.h

/-- Embeds `const baseTarget = (baseScalePct / 100) * shortest` (line 105). -/
def baseTarget (cfg : Config) : ℚ :=
  cfg.baseScalePct / 100 * shortest cfg

/-- Embeds `const imgRatio = imgObj.width / imgObj.height` (line 107). -/
def imgRatio (img : Image) : ℚ :=
  img.width / img.height

/-- The `drawW` value from the `imgRatio >= 1` branch (lines 108-117). -/
def drawW (cfg : Config) (img : Image) : ℚ :=
  if 1 ≤ imgRatio img then baseTarget cfg * imgRatio img else baseTarget cfg

/-- The `drawH` value from the `imgRatio >= 1` branch (lines 108-117). -/
def drawH (cfg : Config) (img : Image) : ℚ :=
  if 1 ≤ imgRatio img then baseTarget cfg else baseTarget cfg / imgRatio img

/-- The `startX` value after the anchor conditionals (lines 120-127):
initialised to `padding`, overwritten when `anchor.includes("r")`
(keys `tr`, `br`), and overwritten again for `anchor === "c"`. -/
def startX (cfg : Config) (img : Image) : ℚ :=
  match cfg.anchor with
  | .tr => cfg.w - cfg.padding - drawW cfg img
  | .br => cfg.w - cfg.padding - drawW cfg img
  | .c => (cfg.w - drawW cfg img) / 2
  | _ => cfg.padding

/-- The `startY` value after the anchor conditionals (lines 120-127):
initialised to `padding`, overwritten when `anchor.includes("b")`
(keys `bl`, `br`), and overwritten again for `anchor === "c"`. -/
def startY (cfg : Config) (img : Image) : ℚ :=
  match cfg.anchor with
  | .bl => cfg.h - cfg.padding - drawH cfg img
  | .br => cfg.h - cfg.padding - drawH cfg img
  | .c => (cfg.h - drawH cfg img) / 2
  | _ => cfg.padding

/-- Embeds `const dir = direction === "right" ? 1 : -1` (line 130). -/
def dirMul (cfg : Config) : ℚ :=
  match cfg.direction with
  | .right => 1
  | .left => -1

/-- Embeds `const gapPx = (gapPct / 100) * drawW` (line 131). -/
def gapPx (cfg : Config) (img : Image) : ℚ :=
  cfg.gapPct / 100 * drawW cfg img

/-- Embeds `const yStepPx = (yOffsetPct / 100) * drawH` (line 132). -/
def yStepPx (cfg : Config) (img : Image) : ℚ :=
  cfg.yOffsetPct / 100 * drawH cfg img

/-- Embeds `const scaleStep = stepScale / 100` (line 133). -/
def scaleStep (cfg : Config) : ℚ :=
  cfg.stepScale / 100

/-- Embeds `const layers = Math.max(1, Math.min(6, repeats))` (line 136),
as the number of loop iterations. -/
def layersCount (cfg : Config) : ℕ :=
  (max 1 (min 6 cfg.repeats)).toNat

/-- Embeds `const s = Math.pow(scaleStep, i)` (line 139). -/
def layerScale (cfg : Config) (i : ℕ) : ℚ :=
  scaleStep cfg ^ i

/-- The body of the layer loop (lines 138-161) for one index `i`:
size `wI = drawW * s`, `hI = drawH * s`; unadjusted position
`x = startX + dir * gapPx * i`, `y = startY + yStepPx * i`; then the
per-anchor pivot adjustment (`tr` shifts x, `bl` shifts y, `br` shifts
both, `c` shifts both by half). -/
def layerAt (cfg : Config) (img : Image) (i : ℕ) : Layer :=
  let s := layerScale cfg i
  let wI := drawW cfg img * s
  let hI := drawH cfg img * s
  let x0 := startX cfg img + dirMul cfg * gapPx cfg img * (i : ℚ)
  let y0 := startY cfg img + yStepPx cfg img * (i : ℚ)
  let x :=
    match cfg.anchor with
    | .tr => x0 + (drawW cfg img - wI)
    | .br => x0 + (drawW cfg img - wI)
    | .c => x0 + (drawW cfg img - wI) / 2
    | _ => x0
  let y :=
    match cfg.anchor with
    | .bl => y0 + (drawH cfg img - hI)
    | .br => y0 + (drawH cfg img - hI)
    | .c => y0 + (drawH cfg img - hI) / 2
    | _ => y0
  ⟨i, s, x, y, wI, hI⟩

/-- The ordered layer sequence, index 0 first. -/
def genLayers (cfg : Config) (img : Image) : List Layer :=
  (List.range (layersCount cfg)).map (layerAt cfg img)

/-- A raster surface in logical coordinates: a color at every point. -/
def Surface := ℚ × ℚ → Color

/-- The axis-aligned rectangle `[x, x+w) × [y, y+h)` that one
`ctx.drawImage(img, x, y, wI, hI)` call covers. -/
structure Rect where
  x : ℚ
  y : ℚ
  w : ℚ
  h : ℚ
deriving DecidableEq, Repr

/-- The destination rectangle of a layer. -/
def layerRect (L : Layer) : Rect :=
  ⟨L.x, L.y, L.w, L.h⟩

/-- Membership of a point in a rectangle (left/top edges inclusive,
right/bottom exclusive, the usual raster convention). -/
def inRect (R : Rect) (p : ℚ × ℚ) : Prop :=
  R.x ≤ p.1 ∧ p.1 < R.x + R.w ∧ R.y ≤ p.2 ∧ p.2 < R.y + R.h

instance (R : Rect) (p : ℚ × ℚ) : Decidable (inRect R p) :=
  inferInstanceAs (Decidable (_ ∧ _ ∧ _ ∧ _))

/-- The color `ctx.drawImage` resamples from the source image for a
destination point inside the destination rectangle: the source is
sampled at the proportionally corresponding source coordinate. -/
def sample (img : Image) (R : Rect) (p : ℚ × ℚ) : Color :=
  img.pixel ((p.1 - R.x) / R.w * img.width, (p.2 - R.y) / R.h * img.height)

/-- Embeds `ctx.drawImage(imgObj, x, y, wI, hI)` (line 161): opaque overwrite
of the destination rectangle, resampling the source; everything outside
the rectangle is untouched. -/
def drawImage (img : Image) (R : Rect) (s : Surface) : Surface :=
  fun p => if inRect R p then sample img R p else s p

/-- Embeds `ctx.fillRect(0, 0, w, h)` with `ctx.fillStyle = bg`
(lines 98-99): opaque fill of a rectangle with one color. -/
def fillRect (c : Color) (R : Rect) (s : Surface) : Surface :=
  fun p => if inRect R p then c else s p

/-- The layer loop (lines 138-162): iterate the layer list in drawing
order (a reversed sequence: highest index first), drawing each one over
the accumulated surface. -/
def drawList (img : Image) : List Layer → Surface → Surface
  | [], s => s
  | L :: rest, s => drawList img rest (drawImage img (layerRect L) s)

/-- The color of a freshly reallocated canvas backing store
(`canvas.width = ...` clears every pixel). -/
def clearColor : Color := 0

/-- The whole `draw` routine (lines 80-163) on a present canvas: clear
(via backing-store reallocation), fill the background over the logical
canvas rectangle, return early if no image is loaded (line 101),
otherwise draw the layers from index `layers - 1` down to index 0. -/
def draw (cfg : Config) (imgObj : Option Image) : Surface :=
  let bgSurf := fillRect cfg.bg ⟨0, 0, cfg.w, cfg.h⟩ (fun _ => clearColor)
  match imgObj with
  | none => bgSurf
  | some img => drawList img (genLayers cfg img).reverse bgSurf

/-- A point lies on the logical canvas. -/
def inCanvas (cfg : Config) (p : ℚ × ℚ) : Prop :=
  0 ≤ p.1 ∧ p.1 < cfg.w ∧ 0 ≤ p.2 ∧ p.2 < cfg.h

instance (cfg : Config) (p : ℚ × ℚ) : Decidable (inCanvas cfg p) :=
  inferInstanceAs (Decidable (_ ∧ _ ∧ _ ∧ _))

/-! ## Image-loading lifecycle (App.js lines 59-77 and 166-169)

The handler `onFile` creates an `Image`; on `onload` it stores the decoded image in
the `imgObj` state, on `onerror` it resets `imgObj` (and the object
URL) to `null`.  The `useEffect` at lines 166-169 lists `imgObj` among
its dependencies, so either state change triggers a full rerun of
`draw`, which repaints the whole surface.  `everLoaded` is a history
(ghost) variable recording whether any decode ever succeeded; the code
keeps no such flag, it only serves to state the spec's
"no image was ever loaded". -/

/-- The observable state: the decoded image (if any), the current
surface content, and the ghost flag for past successful loads. -/
structure AppState where
  imgObj : Option Image
  surface : Surface
  everLoaded : Bool

/-- The redraw effect (lines 166-169): rerun `draw`, replacing the
whole surface. -/
def redraw (cfg : Config) (st : AppState) : AppState :=
  { st with surface := draw cfg st.imgObj }

/-- A successful decode (`img.onload`, line 67): store the image, then
the effect redraws. -/
def onFileLoad (cfg : Config) (img : Image) (st : AppState) : AppState :=
  redraw cfg { st with imgObj := some img, everLoaded := true }

/-- A failed decode (`img.onerror`, lines 69-73): reset `imgObj` to
`null` (the object URL is also revoked, which the surface model does
not track), then the effect redraws. -/
def onFileError (cfg : Config) (st : AppState) : AppState :=
  redraw cfg { st with imgObj := none }

/-- The initial state: no image ever loaded, blank canvas. -/
def initState : AppState :=
  ⟨none, fun _ => clearColor, false⟩

/-! ## Spec-side definitions (for refinement-style comparison)

These follow the specification's words, to be compared with the
definitions above that were translated from the code. -/

/-- The horizontal side of an anchor, per the spec's anchor taxonomy. -/
inductive HSide
  | left
  | center
  | right
deriving DecidableEq, Repr

/-- The vertical side of an anchor, per the spec's anchor taxonomy. -/
inductive VSide
  | top
  | center
  | bottom
deriving DecidableEq, Repr

/-- The horizontal side of each anchor. -/
def hSide : Anchor → HSide
  | .tl => .left
  | .tr => .right
  | .bl => .left
  | .br => .right
  | .c => .center

/-- The vertical side of each anchor. -/
def vSide : Anchor → VSide
  | .tl => .top
  | .tr => .top
  | .bl => .bottom
  | .br => .bottom
  | .c => .center

/-- The spec's pivot-correction rule for x: add `(drawWidth - w_i)`
when the anchor's horizontal side is right, half that amount for
center, nothing for left. -/
def specCorrX (side : HSide) (dW wI : ℚ) : ℚ :=
  match side with
  | .right => dW - wI
  | .center => (dW - wI) / 2
  | .left => 0

/-- The spec's pivot-correction rule for y: add `(drawHeight - h_i)`
when the anchor's vertical side is bottom, half that amount for
center, nothing for top. -/
def specCorrY (side : VSide) (dH hI : ℚ) : ℚ :=
  match side with
  | .bottom => dH - hI
  | .center => (dH - hI) / 2
  | .top => 0

/-- The spec's validity domains for the numeric configuration fields
(§3 data-model table and §6 configuration surface), with the canvas
size drawn from the preset list. -/
def validConfig (cfg : Config) : Prop :=
  ((cfg.w, cfg.h) = (1200, 675) ∨ (cfg.w, cfg.h) = (1920, 1080) ∨
    (cfg.w, cfg.h) = (1200, 1200) ∨ (cfg.w, cfg.h) = (1600, 900)) ∧
  1 ≤ cfg.repeats ∧ cfg.repeats ≤ 6 ∧
  -60 ≤ cfg.gapPct ∧ cfg.gapPct ≤ 60 ∧
  60 ≤ cfg.stepScale ∧ cfg.stepScale ≤ 110 ∧
  -60 ≤ cfg.yOffsetPct ∧ cfg.yOffsetPct ≤ 60 ∧
  0 ≤ cfg.padding ∧ cfg.padding ≤ 200 ∧
  20 ≤ cfg.baseScalePct ∧ cfg.baseScalePct ≤ 120

instance (cfg : Config) : Decidable (validConfig cfg) := by
  unfold validConfig
  infer_instance

/-- The center point of a layer's rectangle. -/
def layerCenter (L : Layer) : ℚ × ℚ :=
  (L.x + L.w / 2, L.y + L.h / 2)

/-! ## Concrete instances used by scenarios, witnesses and
counterexamples -/

/-- Scenario A's configuration: direction right, 3 repeats, gap -18%,
scale step 90%, y-offset 0, anchor bottom-right, padding 24 px, base
scale 70%, canvas 1200 × 675. -/
def cfgA : Config :=
  ⟨1, 1200, 675, .right, 3, -18, 90, 0, .br, 24, 70⟩

/-- A landscape 800 × 600 source image with constant pixel color 2. -/
def imgA : Image :=
  ⟨800, 600, fun _ => 2⟩

/-- Scenario A's configuration with `repeatCount` requested as 9
(Scenario B). -/
def cfgB : Config :=
  { cfgA with repeats := 9 }

/-- Scenario C's configuration: base scale 50% on a 1200 × 1200
canvas. -/
def cfgC : Config :=
  ⟨1, 1200, 1200, .right, 3, -18, 90, 0, .br, 24, 50⟩

/-- A portrait 600 × 800 source image. -/
def imgC : Image :=
  ⟨600, 800, fun _ => 2⟩

/-- A center-anchored configuration with three layers and nonzero gap
and y-offset. -/
def cfgD : Config :=
  ⟨1, 1200, 675, .right, 3, 20, 90, 10, .c, 24, 70⟩

/-- A center-anchored configuration with a single layer
(`repeatCount = 1`) but nonzero gap. -/
def cfgD1 : Config :=
  ⟨1, 1200, 675, .right, 1, 50, 90, 0, .c, 24, 70⟩

/-- A valid configuration whose layer rectangles stick out of the
canvas: base scale 120% with anchor bottom-right and padding 24. -/
def cfgE : Config :=
  ⟨1, 1200, 675, .right, 3, -18, 90, 0, .br, 24, 120⟩

/-- The same with anchor top-left and padding 0. -/
def cfgE' : Config :=
  ⟨1, 1200, 675, .right, 3, -18, 90, 0, .tl, 0, 120⟩

/-- A wide 1600 × 400 source image (aspect ratio 4). -/
def imgE : Image :=
  ⟨1600, 400, fun _ => 2⟩

/-! ## Helper lemmas -/

/-- Layer 0 carries no per-index offset and no pivot correction: its
emitted position is exactly the resolver's start position. -/
theorem layerAt_zero_pos (cfg : Config) (img : Image) :
    (layerAt cfg img 0).x = startX cfg img ∧ (layerAt cfg img 0).y = startY cfg img := by
  obtain ⟨bg, w, h, dir, rep, gap, step, yoff, anc, pad, base⟩ := cfg
  cases anc <;>
    simp [layerAt, layerScale, pow_zero, mul_one, mul_zero, add_zero, sub_self]

/-- The start position only reads the anchor, padding, base scale,
canvas size and image aspect ratio. -/
theorem startPos_congr (cfg cfg' : Config) (img : Image)
    (hw : cfg'.w = cfg.w) (hh : cfg'.h = cfg.h) (hanc : cfg'.anchor = cfg.anchor)
    (hpad : cfg'.padding = cfg.padding) (hbase : cfg'.baseScalePct = cfg.baseScalePct) :
    startX cfg' img = startX cfg img ∧ startY cfg' img = startY cfg img := by
  unfold startX startY drawW drawH baseTarget shortest
  rw [hanc, hw, hh, hpad, hbase]
  exact ⟨rfl, rfl⟩

/-- A `draw` with no image loaded paints every canvas point with the
background color. -/
theorem draw_none_eq_bg (cfg : Config) (p : ℚ × ℚ) (hp : inCanvas cfg p) :
    draw cfg none p = cfg.bg := by
  obtain ⟨h1, h2, h3, h4⟩ := hp
  have hr : inRect ⟨0, 0, cfg.w, cfg.h⟩ p := by
    refine ⟨h1, ?_, h3, ?_⟩ <;> simpa
  simp [draw, fillRect, hr]

/-- Drawing a list with a final layer appended equals drawing that
layer over the result of the rest. -/
theorem drawList_append (img : Image) (ls : List Layer) (L : Layer) (s : Surface) :
    drawList img (ls ++ [L]) s = drawImage img (layerRect L) (drawList img ls s) := by
  induction ls generalizing s with
  | nil => rfl
  | cons a t ih => exact ih (drawImage img (layerRect a) s)

/-- The effective layer count is always at least one. -/
theorem layersCount_pos (cfg : Config) : ∃ k, layersCount cfg = k + 1 := by
  refine ⟨layersCount cfg - 1, ?_⟩
  unfold layersCount
  omega

/-- The compositor's result at any point of layer 0's rectangle is the
resampled source color of layer 0: the loop runs from the highest index
down to 0, so layer 0 is drawn last and overwrites everything under its
bounds. -/
theorem draw_layer0_sample (cfg : Config) (img : Image) (p : ℚ × ℚ)
    (hp : inRect (layerRect (layerAt cfg img 0)) p) :
    draw cfg (some img) p = sample img (layerRect (layerAt cfg img 0)) p := by
  obtain ⟨k, hk⟩ := layersCount_pos cfg
  have hgen : genLayers cfg img =
      layerAt cfg img 0 :: ((List.range k).map Nat.succ).map (layerAt cfg img) := by
    rw [genLayers, hk, List.range_succ_eq_map, List.map_cons]
  have hdraw : draw cfg (some img) =
      drawList img (genLayers cfg img).reverse
        (fillRect cfg.bg ⟨0, 0, cfg.w, cfg.h⟩ (fun _ => clearColor)) := rfl
  rw [hdraw, hgen, List.reverse_cons, drawList_append]
  simp only [drawImage, if_pos hp]

/-- With a center anchor, the center of layer `i` is the canvas center
displaced by the per-index step. -/
theorem layerCenter_center_anchor (cfg : Config) (img : Image) (hanc : cfg.anchor = .c)
    (i : ℕ) :
    layerCenter (layerAt cfg img i) =
      (cfg.w / 2 + dirMul cfg * gapPx cfg img * (i : ℚ),
       cfg.h / 2 + yStepPx cfg img * (i : ℚ)) := by
  simp only [layerCenter, layerAt, hanc, startX, startY, Prod.mk.injEq]
  constructor <;> ring

/-! ## The claims -/

/-- C1: layer 0's reference point equals the Layout Resolver's start
position, and is unchanged under any change confined to `gapPercent`,
`yOffsetPercent` and `scaleStepPercent`. -/
theorem layer0_reference_point_invariant (cfg cfg' : Config) (img : Image)
    (hbg : cfg'.bg = cfg.bg) (hw : cfg'.w = cfg.w) (hh : cfg'.h = cfg.h)
    (hdir : cfg'.direction = cfg.direction) (hrep : cfg'.repeats = cfg.repeats)
    (hanc : cfg'.anchor = cfg.anchor) (hpad : cfg'.padding = cfg.padding)
    (hbase : cfg'.baseScalePct = cfg.baseScalePct) :
    ((layerAt cfg img 0).x, (layerAt cfg img 0).y) = (startX cfg img, startY cfg img) ∧
    ((layerAt cfg' img 0).x, (layerAt cfg' img 0).y) =
      ((layerAt cfg img 0).x, (layerAt cfg img 0).y) := by
  obtain ⟨hx, hy⟩ := layerAt_zero_pos cfg img
  obtain ⟨hx', hy'⟩ := layerAt_zero_pos cfg' img
  obtain ⟨hsx, hsy⟩ := startPos_congr cfg cfg' img hw hh hanc hpad hbase
  refine ⟨by rw [hx, hy], ?_⟩
  rw [hx', hy', hsx, hsy, hx, hy]

/-- C1 witness: two concrete configurations differing only in
`gapPercent`, `yOffsetPercent` and `scaleStepPercent` place layer 0 at
the same reference point, the start position. -/
theorem layer0_reference_point_invariant_witness :
    ((layerAt cfgA imgA 0).x, (layerAt cfgA imgA 0).y) = (startX cfgA imgA, startY cfgA imgA) ∧
    ((layerAt { cfgA with gapPct := 30, stepScale := 100, yOffsetPct := -20 } imgA 0).x,
     (layerAt { cfgA with gapPct := 30, stepScale := 100, yOffsetPct := -20 } imgA 0).y) =
      ((layerAt cfgA imgA 0).x, (layerAt cfgA imgA 0).y) :=
  layer0_reference_point_invariant cfgA
    { cfgA with gapPct := 30, stepScale := 100, yOffsetPct := -20 } imgA
    rfl rfl rfl rfl rfl rfl rfl rfl

/-- C2: each layer's position is the start position plus the per-index
step, then pivot-corrected by the anchor's horizontal/vertical side
(the full shrink amount for right/bottom, half for center, nothing for
left/top); and Scenario A's concrete values: drawHeight 472.5,
drawWidth 630, layer 0 at `(1200-24-630, 675-24-472.5)`, layer 1 at
scale 0.9 with its unadjusted x shifted left by 113.4 px. -/
theorem layer_transform_formula_and_scenarioA :
    (∀ (cfg : Config) (img : Image) (i : ℕ),
      (layerAt cfg img i).scale = layerScale cfg i ∧
      (layerAt cfg img i).w = drawW cfg img * layerScale cfg i ∧
      (layerAt cfg img i).h = drawH cfg img * layerScale cfg i ∧
      (layerAt cfg img i).x =
        startX cfg img + dirMul cfg * gapPx cfg img * (i : ℚ) +
          specCorrX (hSide cfg.anchor) (drawW cfg img) (drawW cfg img * layerScale cfg i) ∧
      (layerAt cfg img i).y =
        startY cfg img + yStepPx cfg img * (i : ℚ) +
          specCorrY (vSide cfg.anchor) (drawH cfg img) (drawH cfg img * layerScale cfg i)) ∧
    drawH cfgA imgA = 945 / 2 ∧ drawW cfgA imgA = 630 ∧
    (layerAt cfgA imgA 0).x = 1200 - 24 - 630 ∧
    (layerAt cfgA imgA 0).y = 675 - 24 - 945 / 2 ∧
    (layerAt cfgA imgA 1).scale = 9 / 10 ∧
    dirMul cfgA * gapPx cfgA imgA * (1 : ℚ) = -(567 / 5) := by
  constructor
  · intro cfg img i
    obtain ⟨bg, w, h, dir, rep, gap, step, yoff, anc, pad, base⟩ := cfg
    cases anc <;>
      simp [layerAt, hSide, vSide, specCorrX, specCorrY, add_zero]
  · refine ⟨?_, ?_, ?_, ?_, ?_, ?_⟩ <;>
      norm_num [layerAt, layerScale, scaleStep, startX, startY, dirMul, gapPx, yStepPx,
        drawW, drawH, baseTarget, shortest, imgRatio, cfgA, imgA]

/-- C4: `scale(i) = (scaleStepPercent/100)^i` with `scale(0) = 1`
exactly; the sequence is non-increasing when the step is at most 100
and non-decreasing when it exceeds 100 (the step is nonnegative
throughout its documented domain `[60,110]`). -/
theorem scale_step_powers_monotone (cfg : Config) (h0 : 0 ≤ cfg.stepScale) :
    layerScale cfg 0 = 1 ∧
    (∀ i, layerScale cfg i = (cfg.stepScale / 100) ^ i) ∧
    (cfg.stepScale ≤ 100 → ∀ i j : ℕ, i ≤ j → layerScale cfg j ≤ layerScale cfg i) ∧
    (100 < cfg.stepScale → ∀ i j : ℕ, i ≤ j → layerScale cfg i ≤ layerScale cfg j) := by
  refine ⟨pow_zero _, fun i => rfl, fun hle i j hij => ?_, fun hlt i j hij => ?_⟩
  · have ha0 : (0 : ℚ) ≤ scaleStep cfg := by
      unfold scaleStep
      positivity
    have ha1 : scaleStep cfg ≤ 1 := by
      unfold scaleStep
      rw [div_le_one (by norm_num)]
      simpa using hle
    exact pow_le_pow_of_le_one ha0 ha1 hij
  · have ha : (1 : ℚ) ≤ scaleStep cfg := by
      unfold scaleStep
      rw [le_div_iff₀ (by norm_num)]
      simpa using hlt.le
    exact pow_le_pow_right₀ ha hij

/-- C4 witness: with Scenario A's step of 90%, scale 0 is exactly 1 and
the sequence decreases from index 2 to index 3; with a step above 100
it increases. -/
theorem scale_step_powers_monotone_witness :
    (0 : ℚ) ≤ cfgA.stepScale ∧ layerScale cfgA 0 = 1 ∧
    layerScale cfgA 3 ≤ layerScale cfgA 2 := by
  have h0 : (0 : ℚ) ≤ cfgA.stepScale := by norm_num [cfgA]
  have h := scale_step_powers_monotone cfgA h0
  exact ⟨h0, h.1, h.2.2.1 (by norm_num [cfgA]) 2 3 (by norm_num)⟩

/-- C5: the number of layers generated and composited is
`clamp(repeatCount, 1, 6)`; a request of 9 yields exactly 6 layers and
a request of 0 yields 1. -/
theorem effective_layer_count_clamped :
    (∀ (cfg : Config) (img : Image),
      (genLayers cfg img).length = (min 6 (max 1 cfg.repeats)).toNat ∧
      draw cfg (some img) =
        drawList img (genLayers cfg img).reverse
          (fillRect cfg.bg ⟨0, 0, cfg.w, cfg.h⟩ (fun _ => clearColor))) ∧
    (genLayers cfgB imgA).length = 6 ∧
    (genLayers { cfgA with repeats := 0 } imgA).length = 1 := by
  refine ⟨fun cfg img => ⟨?_, rfl⟩, ?_, ?_⟩ <;>
    simp only [genLayers, List.length_map, List.length_range, layersCount, cfgB, cfgA] <;>
    omega

/-- C6: the Layout Resolver fits the base rectangle by aspect ratio
(height-driven for landscape/square, width-driven for portrait), so the
shorter rendered dimension always equals `baseScalePercent` of the
canvas's shorter side; Scenario C: a 600 × 800 portrait at 50% on a
1200 × 1200 canvas renders at 600 × 800. -/
theorem resolver_dimensions (cfg : Config) (img : Image)
    (hiw : 0 < img.width) (hih : 0 < img.height)
    (hcw : 0 < cfg.w) (hch : 0 < cfg.h) (hb : 0 ≤ cfg.baseScalePct) :
    (1 ≤ imgRatio img →
      drawH cfg img = baseTarget cfg ∧ drawW cfg img = baseTarget cfg * imgRatio img) ∧
    (imgRatio img < 1 →
      drawW cfg img = baseTarget cfg ∧ drawH cfg img = baseTarget cfg / imgRatio img) ∧
    min (drawW cfg img) (drawH cfg img) = cfg.baseScalePct / 100 * min cfg.w cfg.h ∧
    (drawW cfgC imgC = 600 ∧ drawH cfgC imgC = 800) := by
  have hbt : 0 ≤ baseTarget cfg := by
    have hmin : (0 : ℚ) ≤ min cfg.w cfg.h := le_min hcw.le hch.le
    unfold baseTarget shortest
    positivity
  have hr : 0 < imgRatio img := div_pos hiw hih
  refine ⟨fun h1 => ⟨by simp [drawH, h1], by simp [drawW, h1]⟩, fun h1 => ?_, ?_, ?_⟩
  · have h1' : ¬ 1 ≤ imgRatio img := not_le.mpr h1
    exact ⟨by simp [drawW, h1'], by simp [drawH, h1']⟩
  · rcases le_or_lt 1 (imgRatio img) with h1 | h1
    · have hle : baseTarget cfg ≤ baseTarget cfg * imgRatio img :=
        le_mul_of_one_le_right hbt h1
      rw [show drawW cfg img = baseTarget cfg * imgRatio img from by simp [drawW, h1],
        show drawH cfg img = baseTarget cfg from by simp [drawH, h1], min_eq_right hle]
      rfl
    · have h1' : ¬ 1 ≤ imgRatio img := not_le.mpr h1
      have hle : baseTarget cfg ≤ baseTarget cfg / imgRatio img := by
        rw [le_div_iff₀ hr]
        exact mul_le_of_le_one_right hbt h1.le
      rw [show drawW cfg img = baseTarget cfg from by simp [drawW, h1'],
        show drawH cfg img = baseTarget cfg / imgRatio img from by simp [drawH, h1'],
        min_eq_left hle]
      rfl
  · constructor <;> norm_num [drawW, drawH, baseTarget, shortest, imgRatio, cfgC, imgC]

/-- C6 witness: Scenario C's inputs satisfy the positivity hypotheses
and the shorter rendered dimension is 50% of the canvas's shorter
side. -/
theorem resolver_dimensions_witness :
    ((0 : ℚ) < imgC.width ∧ (0 : ℚ) < imgC.height ∧ (0 : ℚ) < cfgC.w ∧ (0 : ℚ) < cfgC.h ∧
      (0 : ℚ) ≤ cfgC.baseScalePct) ∧
    min (drawW cfgC imgC) (drawH cfgC imgC) = cfgC.baseScalePct / 100 * min cfgC.w cfgC.h ∧
    drawW cfgC imgC = 600 ∧ drawH cfgC imgC = 800 := by
  have h1 : (0 : ℚ) < imgC.width := by norm_num [imgC]
  have h2 : (0 : ℚ) < imgC.height := by norm_num [imgC]
  have h3 : (0 : ℚ) < cfgC.w := by norm_num [cfgC]
  have h4 : (0 : ℚ) < cfgC.h := by norm_num [cfgC]
  have h5 : (0 : ℚ) ≤ cfgC.baseScalePct := by norm_num [cfgC]
  have h := resolver_dimensions cfgC imgC h1 h2 h3 h4 h5
  exact ⟨⟨h1, h2, h3, h4, h5⟩, h.2.2.1, h.2.2.2⟩

/-- C7 (amended): with a center anchor, layer 0's center point equals
the canvas center for every gap, y-offset and scale step; and provided
at least two layers are generated and the base draw dimensions are
nonzero, all layers share one common center point iff
`gapPercent = 0` and `yOffsetPercent = 0`. -/
theorem center_anchor_common_center (cfg : Config) (img : Image)
    (hanc : cfg.anchor = .c) :
    layerCenter (layerAt cfg img 0) = (cfg.w / 2, cfg.h / 2) ∧
    (drawW cfg img ≠ 0 → drawH cfg img ≠ 0 → 2 ≤ layersCount cfg →
      ((∃ c, ∀ i, i < layersCount cfg → layerCenter (layerAt cfg img i) = c) ↔
        (cfg.gapPct = 0 ∧ cfg.yOffsetPct = 0))) := by
  have hcen := layerCenter_center_anchor cfg img hanc
  have h0 : layerCenter (layerAt cfg img 0) = (cfg.w / 2, cfg.h / 2) := by
    rw [hcen 0]
    norm_num
  refine ⟨h0, fun hW hH hN => ⟨?_, ?_⟩⟩
  · rintro ⟨c, hc⟩
    have e0 := hc 0 (by omega)
    have e1 := hc 1 (by omega)
    rw [h0] at e0
    rw [hcen 1, ← e0] at e1
    obtain ⟨ex, ey⟩ := Prod.mk.injEq .. ▸ e1
    have hd : dirMul cfg ≠ 0 := by
      unfold dirMul
      cases cfg.direction <;> norm_num
    have hgx : dirMul cfg * gapPx cfg img = 0 := by
      push_cast at ex
      linarith
    have hgy : yStepPx cfg img = 0 := by
      push_cast at ey
      linarith
    constructor
    · rcases mul_eq_zero.mp hgx with h | h
      · exact absurd h hd
      · rcases mul_eq_zero.mp ((by rwa [gapPx] at h : cfg.gapPct / 100 * drawW cfg img = 0)) with
          h' | h'
        · have := div_eq_zero_iff.mp h'
          simpa using this
        · exact absurd h' hW
    · rcases mul_eq_zero.mp ((by rwa [yStepPx] at hgy :
          cfg.yOffsetPct / 100 * drawH cfg img = 0)) with h' | h'
      · have := div_eq_zero_iff.mp h'
        simpa using this
      · exact absurd h' hH
  · rintro ⟨hg, hy⟩
    refine ⟨(cfg.w / 2, cfg.h / 2), fun i _ => ?_⟩
    rw [hcen i]
    simp [gapPx, yStepPx, hg, hy]

/-- C7 witness: a center-anchored configuration with three layers and
nonzero gap and y-offset still has layer 0 centered on the canvas
center, and (exercising the iff with its provisos) its layers do not
all share one common center point. -/
theorem center_anchor_common_center_witness :
    (cfgD.anchor = .c ∧ drawW cfgD imgA ≠ 0 ∧ drawH cfgD imgA ≠ 0 ∧ 2 ≤ layersCount cfgD) ∧
    layerCenter (layerAt cfgD imgA 0) = (600, 675 / 2) ∧
    ¬(∃ c, ∀ i, i < layersCount cfgD → layerCenter (layerAt cfgD imgA i) = c) := by
  have h1 : drawW cfgD imgA ≠ 0 := by
    norm_num [drawW, baseTarget, shortest, imgRatio, cfgD, imgA]
  have h2 : drawH cfgD imgA ≠ 0 := by
    norm_num [drawH, baseTarget, shortest, imgRatio, cfgD, imgA]
  have h3 : 2 ≤ layersCount cfgD := by decide
  have h := center_anchor_common_center cfgD imgA rfl
  refine ⟨⟨rfl, h1, h2, h3⟩, ?_, ?_⟩
  · rw [h.1]
    norm_num [cfgD]
  · intro hex
    have := (h.2 h1 h2 h3).mp hex
    norm_num [cfgD] at this

/-- C7 counterexample: with a single generated layer
(`repeatCount = 1`), all layers trivially share one common center
point while `gapPercent = 50 ≠ 0`, so the claimed equivalence fails as
universally stated. -/
theorem center_anchor_iff_fails_single_layer :
    (∃ c, ∀ i, i < layersCount cfgD1 → layerCenter (layerAt cfgD1 imgA i) = c) ∧
    ¬(cfgD1.gapPct = 0 ∧ cfgD1.yOffsetPct = 0) ∧
    cfgD1.anchor = .c ∧ validConfig cfgD1 := by
  refine ⟨⟨(600, 675 / 2), fun i hi => ?_⟩, by norm_num [cfgD1], rfl, ?_⟩
  · have hcount : layersCount cfgD1 = 1 := by decide
    have hi0 : i = 0 := by omega
    subst hi0
    rw [layerCenter_center_anchor cfgD1 imgA rfl 0]
    norm_num [cfgD1]
  · norm_num [validConfig, cfgD1]

/-- C8: with no source image loaded, every canvas pixel of the output
equals the background color. -/
theorem no_image_background_only (cfg : Config) (p : ℚ × ℚ) (hp : inCanvas cfg p) :
    draw cfg none p = cfg.bg :=
  draw_none_eq_bg cfg p hp

/-- C8 witness: a concrete canvas point of a concrete configuration
rendered with no image shows the background color. -/
theorem no_image_background_only_witness :
    inCanvas cfgA (600, 300) ∧ draw cfgA none (600, 300) = cfgA.bg := by
  have hp : inCanvas cfgA (600, 300) := by norm_num [inCanvas, cfgA]
  exact ⟨hp, no_image_background_only cfgA (600, 300) hp⟩

/-- C9: layers are drawn from the highest index down to index 0 with
opaque overwrite compositing, so layer 0 is topmost: wherever its
rectangle covers a point, the output is layer 0's resampled source
color. -/
theorem layer0_topmost (cfg : Config) (img : Image) (p : ℚ × ℚ)
    (hp : inRect (layerRect (layerAt cfg img 0)) p) :
    draw cfg (some img) p = sample img (layerRect (layerAt cfg img 0)) p :=
  draw_layer0_sample cfg img p hp

/-- C9 witness: a concrete point covered by layer 0 (which layers 1 and
2 also overlap in Scenario A) shows layer 0's sample. -/
theorem layer0_topmost_witness :
    inRect (layerRect (layerAt cfgA imgA 0)) (600, 300) ∧
    draw cfgA (some imgA) (600, 300) = sample imgA (layerRect (layerAt cfgA imgA 0)) (600, 300) := by
  have hp : inRect (layerRect (layerAt cfgA imgA 0)) (600, 300) := by
    norm_num [inRect, layerRect, layerAt, layerScale, scaleStep, startX, startY, dirMul,
      gapPx, yStepPx, drawW, drawH, baseTarget, shortest, imgRatio, cfgA, imgA]
  exact ⟨hp, layer0_topmost cfgA imgA (600, 300) hp⟩

/-- C10: layer rectangles are never clamped to the canvas: valid
configurations exist (base scale 120% with a wide image) whose emitted
layer 0 rectangle has negative coordinates, and others whose rectangle
extends past the canvas width and height. -/
theorem layers_emitted_unclamped :
    validConfig cfgE ∧ validConfig cfgE' ∧
    (layerAt cfgE imgE 0).x < 0 ∧ (layerAt cfgE imgE 0).y < 0 ∧
    cfgE'.w < (layerAt cfgE' imgE 0).x + (layerAt cfgE' imgE 0).w ∧
    cfgE'.h < (layerAt cfgE' imgE 0).y + (layerAt cfgE' imgE 0).h := by
  refine ⟨?_, ?_, ?_, ?_, ?_, ?_⟩ <;>
    norm_num [validConfig, layerAt, layerScale, scaleStep, startX, startY, dirMul, gapPx,
      yStepPx, drawW, drawH, baseTarget, shortest, imgRatio, cfgE, cfgE', imgE]

/-- C3 (amended): a decode failure resets the application to the
"no image" state without crashing, and the triggered recompute
immediately succeeds, repainting every canvas pixel with the
background color — so background-only output occurs whenever no image
is currently loaded, including after a decode failure discards a
previously loaded image. -/
theorem decode_failure_resets_and_repaints (cfg : Config) (st : AppState) (p : ℚ × ℚ)
    (hp : inCanvas cfg p) :
    (onFileError cfg st).imgObj = none ∧ (onFileError cfg st).surface p = cfg.bg :=
  ⟨rfl, draw_none_eq_bg cfg p hp⟩

/-- C3 witness: a decode failure after a successful load leaves no
image loaded and a background-colored canvas point. -/
theorem decode_failure_resets_and_repaints_witness :
    inCanvas cfgA (600, 300) ∧
    (onFileError cfgA (onFileLoad cfgA imgA initState)).imgObj = none ∧
    (onFileError cfgA (onFileLoad cfgA imgA initState)).surface (600, 300) = cfgA.bg := by
  have hp : inCanvas cfgA (600, 300) := by norm_num [inCanvas, cfgA]
  have h := decode_failure_resets_and_repaints cfgA
    (onFileLoad cfgA imgA initState) (600, 300) hp
  exact ⟨hp, h.1, h.2⟩

/-- C3 counterexample: after a successful load paints an image pixel at
(600, 300), a decode failure triggers a redraw that replaces that pixel
with the background color even though an image had been loaded — the
previous successful surface does not remain, and background-only output
occurs although an image was once loaded. -/
theorem decode_failure_discards_previous_surface :
    (onFileLoad cfgA imgA initState).everLoaded = true ∧
    (onFileLoad cfgA imgA initState).surface (600, 300) = 2 ∧
    (onFileError cfgA (onFileLoad cfgA imgA initState)).surface (600, 300) = cfgA.bg ∧
    cfgA.bg ≠ 2 ∧
    (onFileError cfgA (onFileLoad cfgA imgA initState)).everLoaded = true := by
  have hp : inRect (layerRect (layerAt cfgA imgA 0)) (600, 300) := by
    norm_num [inRect, layerRect, layerAt, layerScale, scaleStep, startX, startY, dirMul,
      gapPx, yStepPx, drawW, drawH, baseTarget, shortest, imgRatio, cfgA, imgA]
  have h2 : (onFileLoad cfgA imgA initState).surface (600, 300) = 2 := by
    have := draw_layer0_sample cfgA imgA (600, 300) hp
    exact this
  have h3 : (onFileError cfgA (onFileLoad cfgA imgA initState)).surface (600, 300) = cfgA.bg :=
    draw_none_eq_bg cfgA (600, 300) (by norm_num [inCanvas, cfgA])
  exact ⟨rfl, h2, h3, by norm_num [cfgA], rfl⟩
